import Mathlib

/-!
Shallow embedding of the Sarif results-list data controller
(src/ResultsListController.ts) together with proofs about its behaviour.

The controller keeps a key-value table of result rows (a JS Map), a
post-filter membership list of row ids, a filter text plus case flag, the
active group-by / sort-by settings, and derives a grouped, sorted projection
(ResultsListData) on demand.  Stateful methods are modelled as explicit
state-passing functions; code paths that can raise a JS exception
(TypeError on a property access of undefined, SyntaxError from the RegExp
constructor) are modelled with Except Unit, where the returned state is the
state at the throw point (JS exceptions do not roll back mutations that
already happened).

JavaScript regular expressions are not reimplemented: the embedding is
parametric in a RegexEngine providing pattern validity (does new RegExp
throw) and matching, together with the two RegExp facts the source relies
on: the empty pattern, which new RegExp(undefined) produces, is valid and
matches every string.
-/

/-- A cell datum as stored in the `value` field of a results-list value: the
source stores either a string (messages, rule ids, file names, formatted
positions) or a number (resultId, runId) there. -/
inductive CellDatum where
  | str : String → CellDatum
  | num : Int → CellDatum
deriving DecidableEq, Repr

/-- A 0-based line/character pair, mirroring the vscode Position stored in
resultStartPos. -/
structure PosLC where
  line : Int
  character : Int
deriving DecidableEq, Repr

/-- One cell of a results-list row (common/Interfaces ResultsListValue and
its Position/Severity refinements, whose shape is fully determined by the
accesses in ResultsListController.ts): a display value, an optional
tooltip, an optional position payload, and the severity payload.  Absent
optional JS fields are modelled as none / false. -/
structure ResultsListValue where
  value : Option CellDatum := none
  tooltip : Option String := none
  pos : Option PosLC := none
  isSeverity : Bool := false
  severityLevelOrder : Option Int := none
deriving DecidableEq, Repr

/-- A results-list row (common/Interfaces ResultsListRow): the nine fields
written by createResultsListRow. -/
structure ResultsListRow where
  message : ResultsListValue
  resultId : ResultsListValue
  ruleId : ResultsListValue
  ruleName : ResultsListValue
  runId : ResultsListValue
  sarifFile : ResultsListValue
  severityLevel : ResultsListValue
  resultFile : ResultsListValue
  resultStartPos : ResultsListValue
deriving DecidableEq, Repr

/-- The sort-by settings value (common/Interfaces ResultsListSortBy). -/
structure ResultsListSortBy where
  column : String
  ascending : Bool
deriving DecidableEq, Repr

/-- A column descriptor (common/Interfaces ResultsListColumn). -/
structure ResultsListColumn where
  description : String
  hide : Bool
  title : String
deriving DecidableEq, Repr

/-- The sarif severity level of a result, per the sarif.Result.level enum
used in the switch of createResultsListRow. -/
inductive SarifLevel where
  | error | warning | open_ | pass | notApplicable | note
deriving DecidableEq, Repr

/-- Modelled from the spec: the SeverityLevelOrder enum (common/Enums.ts is
not under src/) assigns each severity level a fixed integer rank used for
comparison, independent of the display string; ranks follow the order of
the switch cases in createResultsListRow. -/
def severityLevelOrderOf : SarifLevel → Int
  | .error => 0
  | .warning => 1
  | .open_ => 2
  | .pass => 3
  | .notApplicable => 4
  | .note => 5

/-- The runtime string value of a sarif severity level (the sarif level
enum members are string-valued). -/
def sarifLevelText : SarifLevel → String
  | .error => "error"
  | .warning => "warning"
  | .open_ => "open"
  | .pass => "pass"
  | .notApplicable => "notapplicable"
  | .note => "note"

/-- A location of a result (the parts of common/Interfaces Location that
createResultsListRow reads: short file name, full path, range start). -/
structure LocationM where
  fileName : String
  uriFsPath : String
  startLine : Int
  startChar : Int
deriving DecidableEq, Repr

/-- The parts of common/Interfaces ResultInfo that createResultsListRow
reads. message.text, ruleId and ruleName may be absent in a sarif log, so
they are optional. -/
structure ResultInfoM where
  id : Int
  runId : Int
  messageText : Option String
  ruleId : Option String
  ruleName : Option String
  severityLevel : SarifLevel
  locations : List LocationM
deriving DecidableEq, Repr

/-- The part of SarifViewerDiagnostic that updateResultsListData reads. -/
structure SarifViewerDiagnostic where
  resultInfo : ResultInfoM
deriving DecidableEq, Repr

/-- Modelled from the spec: per-run metadata supplied by the upstream
collaborator (SVDiagnosticCollection.getRunInfo is not under src/): the
sarif file short name and full path of a run. -/
structure RunInfoM where
  sarifFileName : String
  sarifFileFullPath : String
deriving DecidableEq, Repr

/-- Modelled from the spec: the stored result that the external collaborator
resolves for a row-select identity, carrying the source location to reveal.
Only its existence matters to the controller. -/
structure DiagnosticM where
  uri : String
deriving DecidableEq, Repr

/-- A compiled regular expression: the pattern source and the ignore-case
flag. generateFilterRegExp passes flags "i" exactly when filterCaseMatch is
false, and new RegExp(undefined, flags) yields the empty pattern. -/
structure RegExpM where
  pattern : String
  ignoreCase : Bool
deriving DecidableEq, Repr

/-- An abstract JS regular-expression engine: isValid p is whether
new RegExp(p) succeeds, test p ci s is whether /p/ (with ignore-case flag
ci) matches s.  The two laws are the RegExp facts the source relies on:
the empty pattern (what new RegExp(undefined) compiles to) is valid and
matches every string. -/
structure RegexEngine where
  isValid : String → Bool
  test : String → Bool → String → Bool
  empty_valid : isValid "" = true
  empty_matches : ∀ ci s, test "" ci s = true

/-- The external collaborators of the controller: the regex engine, the
per-run metadata supplier and the result resolver used on row-select. -/
structure Env where
  eng : RegexEngine
  getRunInfo : Int → RunInfoM
  getResultInfo : Int → Int → Option DiagnosticM

/-- The persisted settings snapshot read from the workspace configuration:
hidden column keys, group-by key and sort-by value. -/
structure Config where
  hideColumns : List String
  groupBy : String
  sortBy : ResultsListSortBy
deriving DecidableEq, Repr

/-- The mutable fields of ResultsListController. resultsListRows is the JS
Map modelled as an insertion-ordered association list; postFilterListRows
is the array of row ids passing the filter. -/
structure ControllerState where
  columns : List (String × ResultsListColumn)
  groupBy : String
  sortBy : ResultsListSortBy
  resultsListRows : List (String × ResultsListRow)
  filterCaseMatch : Bool
  filterText : String
  postFilterListRows : List String
deriving DecidableEq, Repr

/-- One group of the projection. text/tooltip/rows mirror
common/Interfaces ResultsListGroup; key records the JS Map key under which
getResultData stores the group while accumulating. -/
structure GroupRec where
  key : Option CellDatum
  text : Option CellDatum
  tooltip : Option String
  rows : List ResultsListRow
deriving DecidableEq, Repr

/-- The projection sent to the webview (common/Interfaces ResultsListData). -/
structure ResultsListData where
  columns : List (String × ResultsListColumn)
  filterCaseMatch : Bool
  filterText : String
  groupBy : String
  groups : List GroupRec
  resultCount : Nat
  sortBy : ResultsListSortBy
deriving DecidableEq, Repr

/-- The messages onResultsListMessage handles, with their parsed payloads. -/
inductive WebviewMessage where
  | columnToggled (col : String)
  | filterApplied (text : String)
  | filterCaseToggled
  | groupChanged (group : String)
  | resultSelected (resultId runId : Int)
  | sortChanged (col : String)
deriving DecidableEq, Repr

instance {ε α : Type} [DecidableEq ε] [DecidableEq α] : DecidableEq (Except ε α) :=
  fun x y =>
    match x, y with
    | .error a, .error b =>
      match decEq a b with
      | isTrue h => isTrue (by rw [h])
      | isFalse h => isFalse (fun hh => h (Except.error.inj hh))
    | .ok a, .ok b =>
      match decEq a b with
      | isTrue h => isTrue (by rw [h])
      | isFalse h => isFalse (fun hh => h (Except.ok.inj hh))
    | .error _, .ok _ => isFalse (fun hh => Except.noConfusion hh)
    | .ok _, .error _ => isFalse (fun hh => Except.noConfusion hh)

/-- JS string conversion of a cell value, as performed implicitly by
regExp.test and localeCompare: undefined prints as "undefined", numbers in
decimal. -/
def jsToString : Option CellDatum → String
  | none => "undefined"
  | some (.str s) => s
  | some (.num n) => toString n

/-- JS ToNumber of a cell datum, for the subtraction in the numeric branch
of the sort comparator (modelled on the string shapes occurring here: the
empty string converts to 0, integer literals to their value, anything else
to NaN, i.e. none). -/
def toNumberJS : CellDatum → Option Int
  | .num n => some n
  | .str s => if s = "" then some 0 else s.toInt?

/-- localeCompare modelled as code-point string comparison returning the
sign. -/
def localeCompareJS (a b : String) : Int :=
  match compare a b with
  | .lt => -1
  | .eq => 0
  | .gt => 1

/-- JS Map.get on the insertion-ordered association list. -/
def mapGet (m : List (String × ResultsListRow)) (k : String) : Option ResultsListRow :=
  match m with
  | [] => none
  | (k1, v) :: t => if k1 = k then some v else mapGet t k

/-- JS Map.set: replaces the entry in place when the key exists, otherwise
appends (JS Maps keep insertion order). -/
def mapSet (m : List (String × ResultsListRow)) (k : String) (v : ResultsListRow) :
    List (String × ResultsListRow) :=
  match m with
  | [] => [(k, v)]
  | (k1, v1) :: t => if k1 = k then (k, v) :: t else (k1, v1) :: mapSet t k v

/-- JS Map.delete. -/
def mapDelete (m : List (String × ResultsListRow)) (k : String) :
    List (String × ResultsListRow) :=
  match m with
  | [] => []
  | (k1, v1) :: t => if k1 = k then t else (k1, v1) :: mapDelete t k

/-- Array.prototype.indexOf, as an option instead of -1. -/
def idxOf? (x : String) : List String → Option Nat
  | [] => none
  | y :: t => if y = x then some 0 else (idxOf? x t).map (· + 1)

/-- Property lookup row[c] for the nine row fields; none models the JS
undefined obtained for any other column name. -/
def getField (r : ResultsListRow) (c : String) : Option ResultsListValue :=
  if c = "message" then some r.message
  else if c = "resultId" then some r.resultId
  else if c = "ruleId" then some r.ruleId
  else if c = "ruleName" then some r.ruleName
  else if c = "runId" then some r.runId
  else if c = "sarifFile" then some r.sarifFile
  else if c = "severityLevel" then some r.severityLevel
  else if c = "resultFile" then some r.resultFile
  else if c = "resultStartPos" then some r.resultStartPos
  else none

/-- String.prototype.trim: drops leading and trailing whitespace. -/
def jsTrim (s : String) : String :=
  ⟨((s.toList.dropWhile Char.isWhitespace).reverse.dropWhile Char.isWhitespace).reverse⟩

/-- The pattern source that generateFilterRegExp hands to new RegExp: the
filter text when nonempty, else undefined, which the constructor turns into
the empty pattern. -/
def filterPatternOf (s : ControllerState) : String :=
  if s.filterText = "" then "" else s.filterText

/-- generateFilterRegExp: compiles the filter settings into a RegExp with
flags "i" exactly when filterCaseMatch is false.  new RegExp throws a
SyntaxError on an invalid pattern; nothing in the source catches it, so the
model returns Except.error there. -/
def generateFilterRegExp (eng : RegexEngine) (s : ControllerState) : Except Unit RegExpM :=
  let pat := filterPatternOf s
  if eng.isValid pat then .ok { pattern := pat, ignoreCase := !s.filterCaseMatch }
  else .error ()

/-- applyFilterToRow: a row matches when the regexp tests true on any of
the six fields message, ruleId, ruleName, severityLevel, resultFile,
sarifFile (their display values, coerced to strings by test). -/
def applyFilterToRow (eng : RegexEngine) (row : ResultsListRow) (re : RegExpM) : Bool :=
  eng.test re.pattern re.ignoreCase (jsToString row.message.value) ||
  eng.test re.pattern re.ignoreCase (jsToString row.ruleId.value) ||
  eng.test re.pattern re.ignoreCase (jsToString row.ruleName.value) ||
  eng.test re.pattern re.ignoreCase (jsToString row.severityLevel.value) ||
  eng.test re.pattern re.ignoreCase (jsToString row.resultFile.value) ||
  eng.test re.pattern re.ignoreCase (jsToString row.sarifFile.value)

/-- createResultsListRow: converts a ResultInfo into a row, fetching the
run metadata from the collaborator for the sarifFile cell and falling back
to "No Location" / (0, 0) when the result has no location. -/
def createResultsListRow (env : Env) (ri : ResultInfoM) : ResultsListRow :=
  let run := env.getRunInfo ri.runId
  { message := { value := ri.messageText.map .str }
    resultId := { value := some (.num ri.id) }
    ruleId := { value := ri.ruleId.map .str }
    ruleName := { value := ri.ruleName.map .str }
    runId := { value := some (.num ri.runId) }
    sarifFile := { value := some (.str run.sarifFileName),
                   tooltip := some run.sarifFileFullPath }
    severityLevel := { value := some (.str (sarifLevelText ri.severityLevel)),
                       isSeverity := true,
                       severityLevelOrder := some (severityLevelOrderOf ri.severityLevel) }
    resultFile :=
      match ri.locations.head? with
      | some loc => { value := some (.str loc.fileName), tooltip := some loc.uriFsPath }
      | none => { value := some (.str "No Location") }
    resultStartPos :=
      match ri.locations.head? with
      | some loc =>
          { pos := some { line := loc.startLine, character := loc.startChar },
            value := some (.str ("(" ++ toString (loc.startLine + 1) ++ ", " ++
                                 toString (loc.startChar + 1) ++ ")")) }
      | none => { pos := some { line := 0, character := 0 },
                  value := some (.str "(0, 0)") } }

/-- The row id used by updateResultsListData: runId, underscore, resultId. -/
def rowIdOf (runId resultId : Int) : String :=
  toString runId ++ "_" ++ toString resultId

/-- One iteration of the removal loop of updateResultsListData: delete the
id from the Map, then, when present in postFilterListRows,
splice(index) with no delete count, which removes the whole suffix
starting at index (List.take index). -/
def removeStep (s : ControllerState) (d : SarifViewerDiagnostic) : ControllerState :=
  let idStr := rowIdOf d.resultInfo.runId d.resultInfo.id
  let rows := mapDelete s.resultsListRows idStr
  let pf :=
    match idxOf? idStr s.postFilterListRows with
    | some i => s.postFilterListRows.take i
    | none => s.postFilterListRows
  { s with resultsListRows := rows, postFilterListRows := pf }

/-- One iteration of the upsert loop of updateResultsListData: set the row
in the Map and re-evaluate membership: append the id when it matches and is
absent; when it does not match but is present, splice(index) with no delete
count, dropping the suffix. -/
def upsertStep (env : Env) (re : RegExpM) (s : ControllerState)
    (d : SarifViewerDiagnostic) : ControllerState :=
  let row := createResultsListRow env d.resultInfo
  let idStr := jsToString row.runId.value ++ "_" ++ jsToString row.resultId.value
  let rows := mapSet s.resultsListRows idStr row
  let idx := idxOf? idStr s.postFilterListRows
  let pf :=
    if applyFilterToRow env.eng row re then
      match idx with
      | none => s.postFilterListRows ++ [idStr]
      | some _ => s.postFilterListRows
    else
      match idx with
      | some i => s.postFilterListRows.take i
      | none => s.postFilterListRows
  { s with resultsListRows := rows, postFilterListRows := pf }

/-- updateResultsListData: with the remove flag, run the removal loop;
otherwise compile the filter regexp once (propagating its SyntaxError
without touching state) and run the upsert loop. -/
def updateResultsListData (env : Env) (s : ControllerState)
    (diags : List SarifViewerDiagnostic) (remove : Bool) :
    Except Unit Unit × ControllerState :=
  if remove then (.ok (), diags.foldl removeStep s)
  else
    match generateFilterRegExp env.eng s with
    | .error e => (.error e, s)
    | .ok re => (.ok (), diags.foldl (upsertStep env re) s)

/-- updateFilteredRowsList: clears postFilterListRows, compiles the regexp
(the clear has already happened if compilation throws), then pushes every
stored key whose row matches, or every key when the filter text is empty. -/
def updateFilteredRowsList (eng : RegexEngine) (s : ControllerState) :
    Except Unit Unit × ControllerState :=
  let s1 := { s with postFilterListRows := [] }
  match generateFilterRegExp eng s1 with
  | .error e => (.error e, s1)
  | .ok re =>
      let kept := s1.resultsListRows.filter
        (fun kr => s1.filterText = "" || applyFilterToRow eng kr.2 re)
      (.ok (), { s1 with postFilterListRows := kept.map (fun kr => kr.1) })

/-- The comparator body of the row sort in getResultData, on the two cell
values valueA/valueB obtained after the direction swap.  Branches, in
source order: valueA.value undefined (-1, or 0 when valueB.value is also
undefined); position payload on valueA (line then character; a missing
position on valueB is a TypeError); severity payload on valueA (ordinal
difference; NaN, which Array.sort treats as +0, when valueB carries no
ordinal); numeric valueA.value (JS subtraction, NaN again treated as +0);
otherwise localeCompare against the string coercion of valueB.value. -/
def compareValues (vA vB : ResultsListValue) : Except Unit Int :=
  match vA.value with
  | none => .ok (match vB.value with | none => 0 | some _ => -1)
  | some av =>
    match vA.pos with
    | some pa =>
        match vB.pos with
        | some pb =>
            .ok (if pa.line - pb.line = 0 then pa.character - pb.character
                 else pa.line - pb.line)
        | none => .error ()
    | none =>
      if vA.isSeverity then
        .ok (match vA.severityLevelOrder, vB.severityLevelOrder with
             | some oa, some ob => oa - ob
             | _, _ => 0)
      else
        match av with
        | .num n =>
            .ok (match vB.value with
                 | some d => (match toNumberJS d with | some m => n - m | none => 0)
                 | none => 0)
        | .str sa => .ok (localeCompareJS sa (jsToString vB.value))

/-- The full row comparator of getResultData: operands are swapped (not the
result negated) when descending; a sort column that is not a row field
leaves valueA/valueB undefined and every branch then raises a TypeError. -/
def rowComp (sb : ResultsListSortBy) (a b : ResultsListRow) : Except Unit Int :=
  let x := if sb.ascending then a else b
  let y := if sb.ascending then b else a
  match getField x sb.column, getField y sb.column with
  | some vA, some vB => compareValues vA vB
  | _, _ => .error ()

/-- Stable insertion of an element into a sorted list under a fallible
comparator: x goes before the first y with cmp x y ≤ 0 (ties keep the
earlier element first, as JS stable sort does). -/
def insertE (cmp : ResultsListRow → ResultsListRow → Except Unit Int)
    (x : ResultsListRow) : List ResultsListRow → Except Unit (List ResultsListRow)
  | [] => .ok [x]
  | y :: t =>
      match cmp x y with
      | .error e => .error e
      | .ok c =>
          if c ≤ 0 then .ok (x :: y :: t)
          else
            match insertE cmp x t with
            | .ok t2 => .ok (y :: t2)
            | .error e => .error e

/-- Stable sort under a fallible comparator, modelling Array.prototype.sort
with a comparator that may throw: lists of length at most one never invoke
the comparator. -/
def sortE (cmp : ResultsListRow → ResultsListRow → Except Unit Int) :
    List ResultsListRow → Except Unit (List ResultsListRow)
  | [] => .ok []
  | x :: t =>
      match sortE cmp t with
      | .ok t2 => insertE cmp x t2
      | .error e => .error e

/-- The grouping key getResultData uses for a cell of the group-by column:
the tooltip (full path) for the sarifFile / resultFile columns, the display
value otherwise. -/
def keySel (gb : String) (v : ResultsListValue) : Option CellDatum :=
  if gb = "sarifFile" ∨ gb = "resultFile" then v.tooltip.map .str else v.value

/-- Insert a row into the accumulated groups: push onto the group already
stored under the key, or append a fresh group whose label and tooltip come
from this first row. -/
def addRow (acc : List GroupRec) (key : Option CellDatum) (v : ResultsListValue)
    (row : ResultsListRow) : List GroupRec :=
  match acc with
  | [] => [{ key := key, text := v.value, tooltip := v.tooltip, rows := [row] }]
  | g :: t =>
      if g.key = key then { g with rows := g.rows ++ [row] } :: t
      else g :: addRow t key v row

/-- The grouping loop of getResultData over postFilterListRows: resolve each
id in the Map (a stale id yields undefined and the field access on it a
TypeError), read the group-by cell (undefined for an unknown column, again a
TypeError on reading .value / .tooltip), and accumulate into groups. -/
def buildGroupsAux (gb : String) (store : List (String × ResultsListRow))
    (acc : List GroupRec) : List String → Except Unit (List GroupRec)
  | [] => .ok acc
  | id1 :: t =>
      match mapGet store id1 with
      | none => .error ()
      | some row =>
          match getField row gb with
          | none => .error ()
          | some v => buildGroupsAux gb store (addRow acc (keySel gb v) v row) t

/-- The accumulated groups of getResultData, in first-encounter order. -/
def buildGroups (gb : String) (store : List (String × ResultsListRow))
    (ids : List String) : Except Unit (List GroupRec) :=
  buildGroupsAux gb store [] ids

/-- The group-level sort of getResultData: stable sort by descending row
count (comparator (a, b) => b.rows.length - a.rows.length). -/
def sortGroupsByCount (gs : List GroupRec) : List GroupRec :=
  List.insertionSort (fun a b => b.rows.length ≤ a.rows.length) gs

/-- The per-group row sort of getResultData applied across all groups,
propagating a comparator TypeError. -/
def sortGroupRows (sb : ResultsListSortBy) :
    List GroupRec → Except Unit (List GroupRec)
  | [] => .ok []
  | g :: t =>
      match sortE (rowComp sb) g.rows with
      | .error e => .error e
      | .ok r =>
          match sortGroupRows sb t with
          | .error e => .error e
          | .ok t2 => .ok ({ g with rows := r } :: t2)

/-- getResultData: assembles the projection: the column descriptors, filter
state, group-by and sort-by settings, resultCount equal to the Map size,
and the groups built from postFilterListRows, ordered by descending row
count, each group's rows sorted by the active sort column. -/
def getResultData (s : ControllerState) : Except Unit ResultsListData :=
  match buildGroups s.groupBy s.resultsListRows s.postFilterListRows with
  | .error e => .error e
  | .ok gs =>
      match sortGroupRows s.sortBy (sortGroupsByCount gs) with
      | .error e => .error e
      | .ok gs2 =>
          .ok { columns := s.columns
                filterCaseMatch := s.filterCaseMatch
                filterText := s.filterText
                groupBy := s.groupBy
                groups := gs2
                resultCount := s.resultsListRows.length
                sortBy := s.sortBy }

/-- onResultsListMessage: dispatch on the message type.  Column, group and
sort changes only write through to the external settings store (the engine
state re-enters via onSettingsChanged), so they leave the state unchanged
here.  Filter apply / case toggle mutate the filter state, recompute the
membership list and post the projection.  Row select resolves the result
from the collaborator and reveals it externally; an unresolved id means a
TypeError on the property access of undefined.  The triple returned is
(outcome, state at return or throw, projections posted to the UI sink). -/
def onResultsListMessage (env : Env) (_cfg : Config) (s : ControllerState)
    (msg : WebviewMessage) :
    Except Unit Unit × ControllerState × List ResultsListData :=
  match msg with
  | .columnToggled _ => (.ok (), s, [])
  | .filterApplied raw =>
      let input := jsTrim raw
      if input = s.filterText then (.ok (), s, [])
      else
        let s1 := { s with filterText := input }
        match updateFilteredRowsList env.eng s1 with
        | (.error e, s2) => (.error e, s2, [])
        | (.ok _, s2) =>
            match getResultData s2 with
            | .ok d => (.ok (), s2, [d])
            | .error e => (.error e, s2, [])
  | .filterCaseToggled =>
      let s1 := { s with filterCaseMatch := !s.filterCaseMatch }
      match updateFilteredRowsList env.eng s1 with
      | (.error e, s2) => (.error e, s2, [])
      | (.ok _, s2) =>
          match getResultData s2 with
          | .ok d => (.ok (), s2, [d])
          | .error e => (.error e, s2, [])
  | .groupChanged _ => (.ok (), s, [])
  | .resultSelected resultId runId =>
      match env.getResultInfo resultId runId with
      | none => (.error (), s, [])
      | some _ => (.ok (), s, [])
  | .sortChanged _ => (.ok (), s, [])

/-- onSettingsChanged: when the event affects the sarif-viewer section (or
is undefined), reconcile columns, group-by and sort-by from the
configuration snapshot and post the projection.  checkIfSortByChanged
compares the freshly read settings object against the stored one with !==,
i.e. by reference; a fresh snapshot object is never reference-equal, so the
aggregate changed flag is true on every effective call and the projection
is always rebuilt (and its TypeErrors propagate). -/
def onSettingsChanged (cfg : Config) (affects : Bool) (s : ControllerState) :
    Except Unit Unit × ControllerState × List ResultsListData :=
  if affects then
    let cols := s.columns.map
      (fun kc => (kc.1, { kc.2 with hide := cfg.hideColumns.contains kc.1 }))
    let s1 := { s with columns := cols, groupBy := cfg.groupBy, sortBy := cfg.sortBy }
    match getResultData s1 with
    | .ok d => (.ok (), s1, [d])
    | .error e => (.error e, s1, [])
  else (.ok (), s, [])

/-- The column descriptors created by initializeColumns (hide is false
until settings are applied). -/
def initColumns : List (String × ResultsListColumn) :=
  [("message", { description := "Result message", hide := false, title := "Message" }),
   ("resultFile", { description := "Result file location ", hide := false, title := "File" }),
   ("resultStartPos",
    { description := "Results position in the file", hide := false, title := "Position" }),
   ("ruleId", { description := "Rule Id", hide := false, title := "Rule Id" }),
   ("ruleName", { description := "Rule Name", hide := false, title := "Rule Name" }),
   ("runId",
    { description := "Run Id generated based on order in the Sarif file", hide := false,
      title := "Run Id" }),
   ("sarifFile",
    { description := "Sarif file the result data is from", hide := false,
      title := "Sarif File" }),
   ("severityLevel", { description := "Severity Level", hide := false, title := "Severity" })]

/-- The state after the private constructor: empty Map and membership list,
case-insensitive empty filter, initializeColumns, then
onSettingsChanged(undefined) applying the configuration snapshot. -/
def initState (cfg : Config) : ControllerState :=
  { columns := initColumns.map
      (fun kc => (kc.1, { kc.2 with hide := cfg.hideColumns.contains kc.1 }))
    groupBy := cfg.groupBy
    sortBy := cfg.sortBy
    resultsListRows := []
    filterCaseMatch := false
    filterText := ""
    postFilterListRows := [] }

/-- The states reachable through the public interface: construction with
some configuration snapshot, then any sequence of updateResultsListData
calls, webview messages and settings-change notifications (each against
arbitrary collaborators and snapshots), keeping the state of normal return
or of a thrown exception alike. -/
inductive Reachable : ControllerState → Prop where
  | init (cfg : Config) : Reachable (initState cfg)
  | update (s : ControllerState) (env : Env) (diags : List SarifViewerDiagnostic)
      (remove : Bool) : Reachable s → Reachable (updateResultsListData env s diags remove).2
  | message (s : ControllerState) (env : Env) (cfg : Config) (msg : WebviewMessage) :
      Reachable s → Reachable (onResultsListMessage env cfg s msg).2.1
  | settings (s : ControllerState) (cfg : Config) (affects : Bool) :
      Reachable s → Reachable (onSettingsChanged cfg affects s).2.1

/-- Substring occurrence on character lists, the matching primitive of the
concrete toy regex engine below. -/
def occursIn (needle : List Char) : List Char → Bool
  | [] => needle.isEmpty
  | h :: t => needle.isPrefixOf (h :: t) || occursIn needle t

/-- Case folding used by the toy engine when the ignore-case flag is set. -/
def foldCase (ci : Bool) (s : String) : List Char :=
  if ci then s.toList.map Char.toLower else s.toList

/-- Parenthesis balance check: the validity predicate of the toy engine.
JS RegExp rejects unbalanced groups such as "(", which is all the
concrete counterexamples here need. -/
def parensOk : List Char → Nat → Bool
  | [], d => d = 0
  | c :: t, d =>
      if c = '(' then parensOk t (d + 1)
      else if c = ')' then (decide (0 < d)) && parensOk t (d - 1)
      else parensOk t d

theorem occursIn_nil (l : List Char) : occursIn [] l = true := by
  cases l <;> rfl

/-- A concrete regex engine for witnesses and counterexamples: patterns are
matched as (case-folded) literal substrings and a pattern is valid when its
parentheses balance, so "(" is invalid exactly as for JS new RegExp. -/
def toyEngine : RegexEngine :=
  { isValid := fun p => parensOk p.toList 0
    test := fun p ci s => occursIn (foldCase ci p) (foldCase ci s)
    empty_valid := rfl
    empty_matches := by
      intro ci s
      cases ci <;> simp [foldCase, occursIn_nil] }

/-- Concrete collaborators: the toy engine, a constant run-info supplier and
a result resolver that never resolves. -/
def envC : Env :=
  { eng := toyEngine
    getRunInfo := fun _ => { sarifFileName := "scan.sarif",
                             sarifFileFullPath := "/logs/scan.sarif" }
    getResultInfo := fun _ _ => none }

/-- Concrete collaborators whose result resolver resolves run 1, result 1. -/
def envR : Env :=
  { envC with getResultInfo := fun resultId runId =>
      if resultId = 1 ∧ runId = 1 then some { uri := "/x/a.c" } else none }

/-- A configuration snapshot grouping and sorting by message. -/
def cfg0 : Config :=
  { hideColumns := [], groupBy := "message",
    sortBy := { column := "message", ascending := true } }

/-- First sample result: run 1, result 1, rule R1, error, at /x/a.c (2,5). -/
def ri1 : ResultInfoM :=
  { id := 1, runId := 1, messageText := some "msg one", ruleId := some "R1",
    ruleName := some "RuleOne", severityLevel := .error,
    locations := [{ fileName := "a.c", uriFsPath := "/x/a.c",
                    startLine := 1, startChar := 4 }] }

/-- Second sample result: run 1, result 2, rule R2, warning, at /y/a.c, the
same short file name as ri1 but a different full path. -/
def ri2 : ResultInfoM :=
  { id := 2, runId := 1, messageText := some "msg two", ruleId := some "R2",
    ruleName := some "RuleTwo", severityLevel := .warning,
    locations := [{ fileName := "a.c", uriFsPath := "/y/a.c",
                    startLine := 1, startChar := 8 }] }

def d1 : SarifViewerDiagnostic := { resultInfo := ri1 }

def d2 : SarifViewerDiagnostic := { resultInfo := ri2 }

def rowA : ResultsListRow := createResultsListRow envC ri1

def rowB : ResultsListRow := createResultsListRow envC ri2

/-- A controller state whose stored filter text is an unbalanced group, as
left behind by a filter-apply whose recompute threw. -/
def sInv : ControllerState := { initState cfg0 with filterText := "(" }

/-- C10: a filter-apply message trims the raw input and, when the trimmed
text equals the current filter text, is a complete no-op: the state is
unchanged, no projection is posted, and no error is raised. -/
theorem filterApply_unchanged_noop (env : Env) (cfg : Config) (s : ControllerState)
    (raw : String) (h : jsTrim raw = s.filterText) :
    onResultsListMessage env cfg s (.filterApplied raw) = (.ok (), s, []) := by
  simp [onResultsListMessage, h]

/-- Witness for C10: a whitespace-only input against the initial state (its
filter text is empty) is a no-op. -/
theorem filterApply_unchanged_noop_witness :
    onResultsListMessage envC cfg0 (initState cfg0) (.filterApplied "   ") =
      (.ok (), initState cfg0, []) :=
  filterApply_unchanged_noop envC cfg0 (initState cfg0) "   " (by decide)

/-- C2 (amended): handling a row-select message never mutates the engine
state, but when the identity does not resolve the handler raises a
TypeError (reading .resultInfo of undefined) through onResultsListMessage
instead of being a silent no-op. -/
theorem rowSelect_pure_passthrough (env : Env) (cfg : Config) (s : ControllerState)
    (resultId runId : Int) :
    ((onResultsListMessage env cfg s (.resultSelected resultId runId)).2.1 = s) ∧
    (env.getResultInfo resultId runId = none →
      (onResultsListMessage env cfg s (.resultSelected resultId runId)).1 = .error ()) := by
  constructor
  · cases h : env.getResultInfo resultId runId <;> simp [onResultsListMessage, h]
  · intro h
    simp [onResultsListMessage, h]

/-- Counterexample for C2 as stated: with a collaborator that cannot
resolve the identity, the row-select handler surfaces an exception to the
caller rather than no-opping. -/
theorem rowSelect_missing_id_throws :
    (onResultsListMessage envC cfg0 (initState cfg0) (.resultSelected 7 7)).1 =
      .error () := by decide

/-- Witness for C2 (amended) at a concrete unresolvable identity. -/
theorem rowSelect_pure_passthrough_witness :
    ((onResultsListMessage envC cfg0 (initState cfg0) (.resultSelected 9 9)).2.1 =
      initState cfg0) ∧
    ((onResultsListMessage envC cfg0 (initState cfg0) (.resultSelected 9 9)).1 =
      .error ()) :=
  ⟨(rowSelect_pure_passthrough envC cfg0 (initState cfg0) 9 9).1,
   (rowSelect_pure_passthrough envC cfg0 (initState cfg0) 9 9).2 rfl⟩

/-- C1 (amended): an invalid filter pattern is not caught: on filter-apply
with a changed, syntactically invalid pattern the RegExp constructor throws
out of onResultsListMessage after the filter text has been updated and the
membership list cleared; a filter-case-toggle while the stored filter text
is invalid throws likewise after the flag has been toggled and the list
cleared.  No fallback policy runs and no projection is posted. -/
theorem invalidFilter_throws (env : Env) (cfg : Config) (s : ControllerState)
    (txt : String) :
    (env.eng.isValid (jsTrim txt) = false → jsTrim txt ≠ s.filterText →
      onResultsListMessage env cfg s (.filterApplied txt) =
        (.error (), { s with filterText := jsTrim txt, postFilterListRows := [] }, [])) ∧
    (env.eng.isValid (filterPatternOf s) = false →
      onResultsListMessage env cfg s .filterCaseToggled =
        (.error (),
         { s with filterCaseMatch := !s.filterCaseMatch, postFilterListRows := [] },
         [])) := by
  constructor
  · intro h1 h2
    have hne : jsTrim txt ≠ "" := by
      intro he
      rw [he] at h1
      exact absurd env.eng.empty_valid (by simp [h1])
    simp [onResultsListMessage, h2, updateFilteredRowsList, generateFilterRegExp,
          filterPatternOf, hne, h1]
  · intro h
    have hne : s.filterText ≠ "" := by
      intro he
      rw [filterPatternOf, if_pos he] at h
      exact absurd env.eng.empty_valid (by simp [h])
    rw [filterPatternOf, if_neg hne] at h
    simp [onResultsListMessage, updateFilteredRowsList, generateFilterRegExp,
          filterPatternOf, hne, h]

/-- Counterexample for C1 as stated: "(" is rejected by the regex engine,
and the filter-apply message carrying it makes the public handler throw. -/
theorem invalidFilter_not_caught :
    toyEngine.isValid "(" = false ∧
    (onResultsListMessage envC cfg0 (initState cfg0) (.filterApplied "(")).1 =
      .error () := by decide

/-- Witness for C1 (amended): both throwing paths at concrete inputs. -/
theorem invalidFilter_throws_witness :
    (onResultsListMessage envC cfg0 (initState cfg0) (.filterApplied "(") =
      (.error (),
       { initState cfg0 with filterText := jsTrim "(", postFilterListRows := [] }, [])) ∧
    (onResultsListMessage envC cfg0 sInv .filterCaseToggled =
      (.error (),
       { sInv with filterCaseMatch := !sInv.filterCaseMatch, postFilterListRows := [] },
       [])) :=
  ⟨(invalidFilter_throws envC cfg0 (initState cfg0) "(").1 (by decide) (by decide),
   (invalidFilter_throws envC cfg0 sInv "").2 (by decide)⟩

/-- C5: a row passes the compiled filter iff the regexp matches at least
one of the six tested display fields (message, ruleId, ruleName,
severityLevel, resultFile, sarifFile) - logical OR across fields; the
compiled regexp carries the ignore-case flag exactly when filterCaseMatch
is off; and with empty filter text every row matches. -/
theorem applyFilterToRow_or_fields (eng : RegexEngine) (s : ControllerState)
    (re : RegExpM) (row : ResultsListRow)
    (h : generateFilterRegExp eng s = .ok re) :
    (applyFilterToRow eng row re = true ↔
      (eng.test re.pattern re.ignoreCase (jsToString row.message.value) = true ∨
       eng.test re.pattern re.ignoreCase (jsToString row.ruleId.value) = true ∨
       eng.test re.pattern re.ignoreCase (jsToString row.ruleName.value) = true ∨
       eng.test re.pattern re.ignoreCase (jsToString row.severityLevel.value) = true ∨
       eng.test re.pattern re.ignoreCase (jsToString row.resultFile.value) = true ∨
       eng.test re.pattern re.ignoreCase (jsToString row.sarifFile.value) = true)) ∧
    re.ignoreCase = !s.filterCaseMatch ∧
    (s.filterText = "" → applyFilterToRow eng row re = true) := by
  unfold generateFilterRegExp at h
  by_cases hv : eng.isValid (filterPatternOf s) = true
  · rw [if_pos hv] at h
    injection h with h
    subst h
    refine ⟨?_, rfl, ?_⟩
    · simp [applyFilterToRow, Bool.or_eq_true]
      tauto
    · intro he
      simp [applyFilterToRow, filterPatternOf, he, eng.empty_matches]
  · rw [if_neg hv] at h
    cases h

/-- Witness for C5 at the toy engine, the initial state and a sample row. -/
theorem applyFilterToRow_or_fields_witness :
    (applyFilterToRow toyEngine rowA { pattern := "", ignoreCase := true } = true ↔
      (toyEngine.test "" true (jsToString rowA.message.value) = true ∨
       toyEngine.test "" true (jsToString rowA.ruleId.value) = true ∨
       toyEngine.test "" true (jsToString rowA.ruleName.value) = true ∨
       toyEngine.test "" true (jsToString rowA.severityLevel.value) = true ∨
       toyEngine.test "" true (jsToString rowA.resultFile.value) = true ∨
       toyEngine.test "" true (jsToString rowA.sarifFile.value) = true)) ∧
    (RegExpM.mk "" true).ignoreCase = !(initState cfg0).filterCaseMatch ∧
    ((initState cfg0).filterText = "" →
      applyFilterToRow toyEngine rowA { pattern := "", ignoreCase := true } = true) :=
  applyFilterToRow_or_fields toyEngine (initState cfg0)
    { pattern := "", ignoreCase := true } rowA (by decide)

/-- A sample row whose message display value is the string "abc". -/
def rowMsgAbc : ResultsListRow := { rowA with message := { value := some (.str "abc") } }

/-- A sample row whose message display value is undefined. -/
def rowMsgUndef : ResultsListRow := { rowA with message := { value := none } }

/-- Counterexample for C6 as stated: with the first operand defined ("abc")
and the second undefined, the comparator falls into the string branch and
compares against the coercion "undefined", yielding -1, although the claim
requires the undefined value to compare as less (so +1 here); and because
only the first operand is special-cased, the ascending and descending
comparisons of this pair BOTH return -1, so toggling the flag does not
reverse their order although their sort values differ. -/
theorem comparator_undefined_asymmetry :
    compareValues { value := some (.str "abc") } { value := none } = .ok (-1) ∧
    rowComp { column := "message", ascending := true } rowMsgAbc rowMsgUndef =
      .ok (-1) ∧
    rowComp { column := "message", ascending := false } rowMsgAbc rowMsgUndef =
      .ok (-1) := by decide

/-- C6 (amended): when the FIRST operand's display value (after the
direction swap) is undefined it compares as less than a defined value and
equal to another undefined one; and descending order is obtained by
swapping the operands handed to the comparator, never by negating its
result.  (When only the second operand is undefined the comparator instead
falls through to the kind-specific branches, cf. the counterexample.) -/
theorem comparator_firstUndefined_swap (vA vB : ResultsListValue) (c : String)
    (a b : ResultsListRow) (h : vA.value = none) :
    compareValues vA vB = .ok (if vB.value.isNone then 0 else -1) ∧
    rowComp { column := c, ascending := false } a b =
      rowComp { column := c, ascending := true } b a := by
  constructor
  · unfold compareValues
    rw [h]
    cases vB.value <;> simp
  · rfl

/-- Witness for C6 (amended) at concrete operands and rows. -/
theorem comparator_firstUndefined_swap_witness :
    (compareValues { value := none } { value := some (.str "abc") } =
      .ok (if (some (CellDatum.str "abc")).isNone then 0 else -1)) ∧
    (rowComp { column := "ruleId", ascending := false } rowA rowB =
      rowComp { column := "ruleId", ascending := true } rowB rowA) :=
  comparator_firstUndefined_swap { value := none } { value := some (.str "abc") }
    "ruleId" rowA rowB rfl

/-- The number of stored rows passing the current filter (the membership
condition of updateFilteredRowsList applied to the whole Row Store). -/
def passingRowCount (eng : RegexEngine) (s : ControllerState) : Except Unit Nat :=
  match generateFilterRegExp eng s with
  | .error e => .error e
  | .ok re =>
      .ok ((s.resultsListRows.filter
             (fun kr => s.filterText = "" || applyFilterToRow eng kr.2 re)).length)

/-- The total number of rows across all groups of a projection. -/
def groupsRowTotal (d : ResultsListData) : Nat :=
  d.groups.foldl (fun n g => n + g.rows.length) 0

/-- The state after inserting the two sample results into a fresh
controller (both pass the empty filter, so both ids are members). -/
def sTwo : ControllerState :=
  (updateResultsListData envC (initState cfg0) [d1, d2] false).2

/-- The state after then removing the first sample result. -/
def sAfterRemove : ControllerState := (updateResultsListData envC sTwo [d1] true).2

/-- C3: the failing run for the removal claim.  Before the removal the
membership list is ["1_1", "1_2"]; removing only "1_1" leaves the Row Store
correctly holding just "1_2", but splice(index) with no delete count wipes
the whole suffix of the membership list, so "1_2" - never asked to be
removed and still matching - is dropped from membership as well. -/
theorem removal_splice_drops_suffix :
    sTwo.postFilterListRows = ["1_1", "1_2"] ∧
    sAfterRemove.resultsListRows.map Prod.fst = ["1_2"] ∧
    sAfterRemove.postFilterListRows = [] := by decide

/-- C4: the failing run for the projection-count invariant.  In the state
reached by inserting two rows and removing one, resultCount correctly
reports the Row Store size 1, but the groups of the projection hold 0 rows
in total while 1 stored row passes the (empty) filter - the membership list
lost "1_2" to the splice bug. -/
theorem projection_counts_diverge :
    (getResultData sAfterRemove).map (fun d => (d.resultCount, groupsRowTotal d)) =
      .ok (1, 0) ∧
    passingRowCount toyEngine sAfterRemove = .ok 1 ∧
    sAfterRemove.resultsListRows.length = 1 := by decide

theorem insertE_perm (cmp : ResultsListRow → ResultsListRow → Except Unit Int)
    (x : ResultsListRow) (l l2 : List ResultsListRow)
    (h : insertE cmp x l = .ok l2) : l2.Perm (x :: l) := by
  induction l generalizing l2 with
  | nil =>
      unfold insertE at h
      injection h with h
      subst h
      exact List.Perm.refl _
  | cons y t ih =>
      unfold insertE at h
      cases hc : cmp x y with
      | error e => rw [hc] at h; cases h
      | ok c =>
          simp only [hc] at h
          by_cases hle : c ≤ 0
          · rw [if_pos hle] at h
            injection h with h
            subst h
            exact List.Perm.refl _
          · rw [if_neg hle] at h
            cases hi : insertE cmp x t with
            | error e => simp only [hi] at h; cases h
            | ok t2 =>
                simp only [hi] at h
                injection h with h
                subst h
                exact ((ih t2 hi).cons y).trans (List.Perm.swap x y t)

theorem sortE_perm (cmp : ResultsListRow → ResultsListRow → Except Unit Int)
    (l l2 : List ResultsListRow) (h : sortE cmp l = .ok l2) : l2.Perm l := by
  induction l generalizing l2 with
  | nil =>
      unfold sortE at h
      injection h with h
      subst h
      exact List.Perm.refl _
  | cons x t ih =>
      unfold sortE at h
      cases hs : sortE cmp t with
      | error e => rw [hs] at h; cases h
      | ok t2 =>
          rw [hs] at h
          exact (insertE_perm cmp x t2 l2 h).trans ((ih t2 hs).cons x)

theorem sortE_error_of_cmp (cmp : ResultsListRow → ResultsListRow → Except Unit Int)
    (hcmp : ∀ a b, cmp a b = .error ()) (l : List ResultsListRow)
    (hl : 2 ≤ l.length) : sortE cmp l = .error () := by
  cases l with
  | nil => simp at hl
  | cons x t =>
      cases t with
      | nil => simp at hl
      | cons y u =>
          show sortE cmp (x :: y :: u) = .error ()
          unfold sortE
          cases hs : sortE cmp (y :: u) with
          | error e => rfl
          | ok t2 =>
              have hp := sortE_perm cmp _ _ hs
              have hlen := hp.length_eq
              cases t2 with
              | nil => simp at hlen
              | cons z v =>
                  show insertE cmp x (z :: v) = .error ()
                  unfold insertE
                  rw [hcmp x z]

theorem rowComp_error_of_unknown_column (sb : ResultsListSortBy)
    (h : ∀ r, getField r sb.column = none) (a b : ResultsListRow) :
    rowComp sb a b = .error () := by
  unfold rowComp
  simp [h]

theorem sortGroupRows_error_of_mem (sb : ResultsListSortBy) (gs : List GroupRec)
    (g : GroupRec) (hg : g ∈ gs) (hfail : sortE (rowComp sb) g.rows = .error ()) :
    sortGroupRows sb gs = .error () := by
  induction gs with
  | nil => cases hg
  | cons g0 t ih =>
      unfold sortGroupRows
      rcases List.mem_cons.mp hg with h0 | h0
      · subst h0
        rw [hfail]
      · cases hs : sortE (rowComp sb) g0.rows with
        | error e => rfl
        | ok r => rw [ih h0]

/-- C8 (amended): getResultData applies no defensive default for a sort-by
whose column is not a row field: as soon as any group holds at least two
rows the comparator reads a property of undefined and the TypeError
propagates out of the projection build. -/
theorem invalidSortColumn_crashes (s : ControllerState) (gs : List GroupRec)
    (g : GroupRec) (h1 : ∀ r, getField r s.sortBy.column = none)
    (h2 : buildGroups s.groupBy s.resultsListRows s.postFilterListRows = .ok gs)
    (h3 : g ∈ gs) (h4 : 2 ≤ g.rows.length) :
    getResultData s = .error () := by
  have hg1 : g ∈ sortGroupsByCount gs := by
    unfold sortGroupsByCount
    exact (List.perm_insertionSort _ gs).mem_iff.mpr h3
  have hcmp : ∀ a b, rowComp s.sortBy a b = .error () :=
    rowComp_error_of_unknown_column s.sortBy h1
  have hfail := sortE_error_of_cmp (rowComp s.sortBy) hcmp g.rows h4
  unfold getResultData
  simp only [h2, sortGroupRows_error_of_mem s.sortBy _ g hg1 hfail]

/-- A state with two stored rows of the same run (hence one sarifFile
group) and a sort-by column naming no row field. -/
def sBadSort : ControllerState :=
  { columns := initColumns, groupBy := "sarifFile",
    sortBy := { column := "bogus", ascending := true },
    resultsListRows := [("1_1", rowA), ("1_2", rowB)],
    filterCaseMatch := false, filterText := "",
    postFilterListRows := ["1_1", "1_2"] }

/-- The same state with the direction flipped, for the witness. -/
def sBadSortDesc : ControllerState :=
  { sBadSort with sortBy := { column := "bogus", ascending := false } }

/-- Counterexample for C8 as stated: with the malformed sort-by column
"bogus" and one group of two rows, building the projection throws instead
of falling back to identity order. -/
theorem invalidSortColumn_no_default :
    getResultData sBadSort = .error () := by decide

/-- The groups sBadSortDesc yields before the row sort (a single sarifFile
group holding both rows). -/
def gsBadSort : List GroupRec :=
  match buildGroups sBadSortDesc.groupBy sBadSortDesc.resultsListRows
      sBadSortDesc.postFilterListRows with
  | .ok gs => gs
  | .error _ => []

/-- The first of those groups. -/
def gBadSort : GroupRec :=
  match gsBadSort with
  | g :: _ => g
  | [] => { key := none, text := none, tooltip := none, rows := [] }

/-- Witness for C8 (amended) at the concrete two-row state. -/
theorem invalidSortColumn_crashes_witness : getResultData sBadSortDesc = .error () :=
  invalidSortColumn_crashes sBadSortDesc gsBadSort gBadSort (fun _ => rfl)
    (by decide) (by decide) (by decide)

theorem mem_mapSet_keys (m : List (String × ResultsListRow)) (k x : String)
    (v : ResultsListRow) :
    x ∈ (mapSet m k v).map Prod.fst ↔ x ∈ m.map Prod.fst ∨ x = k := by
  induction m with
  | nil => simp [mapSet]
  | cons p t ih =>
      unfold mapSet
      by_cases hk : p.1 = k
      · rw [if_pos hk]
        simp [hk]
        tauto
      · rw [if_neg hk]
        simp [ih]
        tauto

theorem mapSet_keys_nodup (m : List (String × ResultsListRow)) (k : String)
    (v : ResultsListRow) (h : (m.map Prod.fst).Nodup) :
    ((mapSet m k v).map Prod.fst).Nodup := by
  induction m with
  | nil => simp [mapSet]
  | cons p t ih =>
      unfold mapSet
      rw [List.map_cons, List.nodup_cons] at h
      by_cases hk : p.1 = k
      · rw [if_pos hk]
        rw [List.map_cons, List.nodup_cons]
        exact ⟨hk ▸ h.1, h.2⟩
      · rw [if_neg hk]
        rw [List.map_cons, List.nodup_cons]
        refine ⟨?_, ih h.2⟩
        intro hmem
        rcases (mem_mapSet_keys t k p.1 v).mp hmem with hm | he
        · exact h.1 hm
        · exact hk he

theorem mapDelete_keys_sublist (m : List (String × ResultsListRow)) (k : String) :
    ((mapDelete m k).map Prod.fst).Sublist (m.map Prod.fst) := by
  induction m with
  | nil => simp [mapDelete]
  | cons p t ih =>
      unfold mapDelete
      by_cases hk : p.1 = k
      · rw [if_pos hk]
        exact List.sublist_cons_self _ _
      · rw [if_neg hk]
        rw [List.map_cons, List.map_cons]
        exact ih.cons₂ _

/-- The well-formedness the controller maintains: the Map keys are distinct
(a JS Map property) and the membership list holds each row id at most once. -/
def StateWF (s : ControllerState) : Prop :=
  (s.resultsListRows.map Prod.fst).Nodup ∧ s.postFilterListRows.Nodup

theorem idxOf?_none_iff (x : String) (l : List String) :
    idxOf? x l = none ↔ x ∉ l := by
  induction l with
  | nil => simp [idxOf?]
  | cons y t ih =>
      unfold idxOf?
      by_cases hy : y = x
      · simp [hy]
      · simp [hy, Option.map_eq_none', ih]
        tauto

theorem removeStep_wf (s : ControllerState) (d : SarifViewerDiagnostic)
    (h : StateWF s) : StateWF (removeStep s d) := by
  obtain ⟨h1, h2⟩ := h
  unfold removeStep
  constructor
  · exact (mapDelete_keys_sublist _ _).nodup h1
  · dsimp only
    split
    · exact (List.take_sublist _ _).nodup h2
    · exact h2

theorem upsertStep_wf (env : Env) (re : RegExpM) (s : ControllerState)
    (d : SarifViewerDiagnostic) (h : StateWF s) : StateWF (upsertStep env re s d) := by
  obtain ⟨h1, h2⟩ := h
  unfold upsertStep
  constructor
  · exact mapSet_keys_nodup _ _ _ h1
  · dsimp only
    split
    · split
      · rename_i hidx
        rw [List.nodup_append]
        refine ⟨h2, List.nodup_singleton _, ?_⟩
        intro a ha hb
        rw [List.mem_singleton] at hb
        subst hb
        exact (idxOf?_none_iff _ _).mp hidx ha
      · exact h2
    · split
      · exact (List.take_sublist _ _).nodup h2
      · exact h2

theorem foldl_preserve {α : Type} (f : ControllerState → α → ControllerState)
    (P : ControllerState → Prop) (hf : ∀ s a, P s → P (f s a)) :
    ∀ (l : List α) (s : ControllerState), P s → P (l.foldl f s) := by
  intro l
  induction l with
  | nil => intro s hs; exact hs
  | cons a t ih => intro s hs; exact ih (f s a) (hf s a hs)

theorem updateResultsListData_wf (env : Env) (s : ControllerState)
    (diags : List SarifViewerDiagnostic) (remove : Bool) (h : StateWF s) :
    StateWF (updateResultsListData env s diags remove).2 := by
  unfold updateResultsListData
  split
  · exact foldl_preserve removeStep StateWF (fun s d => removeStep_wf s d) diags s h
  · split
    · exact h
    · exact foldl_preserve _ StateWF (fun s d => upsertStep_wf env _ s d) diags s h

theorem updateFilteredRowsList_wf (eng : RegexEngine) (s : ControllerState)
    (h : StateWF s) : StateWF (updateFilteredRowsList eng s).2 := by
  obtain ⟨h1, h2⟩ := h
  unfold updateFilteredRowsList
  dsimp only
  split
  · exact ⟨h1, List.nodup_nil⟩
  · refine ⟨h1, ?_⟩
    exact ((List.filter_sublist _).map Prod.fst).nodup h1

theorem onResultsListMessage_wf (env : Env) (cfg : Config) (s : ControllerState)
    (msg : WebviewMessage) (h : StateWF s) :
    StateWF (onResultsListMessage env cfg s msg).2.1 := by
  cases msg with
  | columnToggled c => exact h
  | groupChanged g => exact h
  | sortChanged c => exact h
  | resultSelected rid runid =>
      unfold onResultsListMessage
      dsimp only
      split <;> exact h
  | filterCaseToggled =>
      unfold onResultsListMessage
      have h3 := updateFilteredRowsList_wf env.eng
        { s with filterCaseMatch := !s.filterCaseMatch } ⟨h.1, h.2⟩
      dsimp only
      split
      · rename_i heq
        have h4 : ((updateFilteredRowsList env.eng
            { s with filterCaseMatch := !s.filterCaseMatch }).2) = _ := congrArg Prod.snd heq
        rw [h4] at h3
        exact h3
      · rename_i heq
        have h4 : ((updateFilteredRowsList env.eng
            { s with filterCaseMatch := !s.filterCaseMatch }).2) = _ := congrArg Prod.snd heq
        rw [h4] at h3
        split <;> exact h3
  | filterApplied raw =>
      unfold onResultsListMessage
      dsimp only
      split
      · exact h
      · have h3 := updateFilteredRowsList_wf env.eng
          { s with filterText := jsTrim raw } ⟨h.1, h.2⟩
        split
        · rename_i heq
          have h4 : ((updateFilteredRowsList env.eng
              { s with filterText := jsTrim raw }).2) = _ := congrArg Prod.snd heq
          rw [h4] at h3
          exact h3
        · rename_i heq
          have h4 : ((updateFilteredRowsList env.eng
              { s with filterText := jsTrim raw }).2) = _ := congrArg Prod.snd heq
          rw [h4] at h3
          split <;> exact h3

theorem onSettingsChanged_wf (cfg : Config) (affects : Bool) (s : ControllerState)
    (h : StateWF s) : StateWF (onSettingsChanged cfg affects s).2.1 := by
  unfold onSettingsChanged
  split
  · dsimp only
    split <;> exact h
  · exact h

theorem reachable_wf (s : ControllerState) (h : Reachable s) : StateWF s := by
  induction h with
  | init cfg => exact ⟨List.nodup_nil, List.nodup_nil⟩
  | update s env diags remove _ ih => exact updateResultsListData_wf env s diags remove ih
  | message s env cfg msg _ ih => exact onResultsListMessage_wf env cfg s msg ih
  | settings s cfg affects _ ih => exact onSettingsChanged_wf cfg affects s ih

/-- C9: in every state reachable through the public operations the
post-filter membership list holds each row id at most once: a non-removal
update never appends a duplicate and a full recompute rebuilds the list
from the Map's distinct keys. -/
theorem postFilter_nodup (s : ControllerState) (h : Reachable s) :
    s.postFilterListRows.Nodup :=
  (reachable_wf s h).2

/-- Witness for C9 at the concrete reachable state holding two rows. -/
theorem postFilter_nodup_witness : sTwo.postFilterListRows.Nodup :=
  postFilter_nodup sTwo
    (Reachable.update (initState cfg0) envC [d1, d2] false (Reachable.init cfg0))

/-- The invariant of an accumulated group: every row it holds carries the
group's Map key in the group-by cell, and its label/key/text come from one
of its rows. -/
def GroupWF (gb : String) (g : GroupRec) : Prop :=
  (∀ r ∈ g.rows, ∃ v, getField r gb = some v ∧ keySel gb v = g.key) ∧
  (∃ r, r ∈ g.rows ∧ ∃ v, getField r gb = some v ∧ keySel gb v = g.key ∧ g.text = v.value)

theorem addRow_wf (gb : String) (acc : List GroupRec) (k : Option CellDatum)
    (v : ResultsListValue) (row : ResultsListRow)
    (hacc : ∀ g ∈ acc, GroupWF gb g) (hv : getField row gb = some v)
    (hk : keySel gb v = k) : ∀ g ∈ addRow acc k v row, GroupWF gb g := by
  induction acc with
  | nil =>
      intro g hg
      simp [addRow] at hg
      subst hg
      constructor
      · intro r hr
        simp at hr
        subst hr
        exact ⟨v, hv, hk⟩
      · exact ⟨row, by simp, v, hv, hk, rfl⟩
  | cons g0 t ih =>
      intro g hg
      unfold addRow at hg
      by_cases h0 : g0.key = k
      · rw [if_pos h0] at hg
        rcases List.mem_cons.mp hg with he | ht
        · subst he
          have hg0 := hacc g0 (by simp)
          constructor
          · intro r hr
            rcases List.mem_append.mp hr with h1 | h1
            · exact hg0.1 r h1
            · rw [List.mem_singleton] at h1
              subst h1
              exact ⟨v, hv, by rw [hk, ← h0]⟩
          · obtain ⟨r0, hr0, v0, hv0, hk0, ht0⟩ := hg0.2
            exact ⟨r0, List.mem_append.mpr (Or.inl hr0), v0, hv0, hk0, ht0⟩
        · exact hacc g (List.mem_cons.mpr (Or.inr ht))
      · rw [if_neg h0] at hg
        rcases List.mem_cons.mp hg with he | ht
        · rw [he]
          exact hacc g0 (List.mem_cons_self g0 t)
        · exact ih (fun g2 hg2 => hacc g2 (List.mem_cons.mpr (Or.inr hg2))) g ht

theorem addRow_mem_new (acc : List GroupRec) (k : Option CellDatum)
    (v : ResultsListValue) (row : ResultsListRow) :
    ∃ g ∈ addRow acc k v row, row ∈ g.rows := by
  induction acc with
  | nil =>
      refine ⟨{ key := k, text := v.value, tooltip := v.tooltip, rows := [row] }, ?_, ?_⟩
      · simp [addRow]
      · simp
  | cons g0 t ih =>
      unfold addRow
      by_cases h0 : g0.key = k
      · rw [if_pos h0]
        refine ⟨{ g0 with rows := g0.rows ++ [row] }, List.mem_cons_self _ _, ?_⟩
        simp
      · rw [if_neg h0]
        obtain ⟨g, hg, hr⟩ := ih
        exact ⟨g, List.mem_cons.mpr (Or.inr hg), hr⟩

theorem addRow_mem_mono (acc : List GroupRec) (k : Option CellDatum)
    (v : ResultsListValue) (row : ResultsListRow) (g : GroupRec) (hg : g ∈ acc)
    (r : ResultsListRow) (hr : r ∈ g.rows) :
    ∃ g2 ∈ addRow acc k v row, r ∈ g2.rows := by
  induction acc with
  | nil => cases hg
  | cons g0 t ih =>
      unfold addRow
      by_cases h0 : g0.key = k
      · rw [if_pos h0]
        rcases List.mem_cons.mp hg with he | ht
        · refine ⟨{ g0 with rows := g0.rows ++ [row] }, List.mem_cons_self _ _, ?_⟩
          rw [he] at hr
          exact List.mem_append.mpr (Or.inl hr)
        · exact ⟨g, List.mem_cons.mpr (Or.inr ht), hr⟩
      · rw [if_neg h0]
        rcases List.mem_cons.mp hg with he | ht
        · refine ⟨g0, List.mem_cons_self _ _, ?_⟩
          rw [← he]
          exact hr
        · obtain ⟨g2, hg2, hr2⟩ := ih ht
          exact ⟨g2, List.mem_cons.mpr (Or.inr hg2), hr2⟩

theorem buildGroupsAux_wf (gb : String) (store : List (String × ResultsListRow)) :
    ∀ (ids : List String) (acc gs : List GroupRec),
      (∀ g ∈ acc, GroupWF gb g) → buildGroupsAux gb store acc ids = .ok gs →
      ∀ g ∈ gs, GroupWF gb g := by
  intro ids
  induction ids with
  | nil =>
      intro acc gs hacc h
      unfold buildGroupsAux at h
      injection h with h
      subst h
      exact hacc
  | cons id1 t ih =>
      intro acc gs hacc h
      unfold buildGroupsAux at h
      cases hm : mapGet store id1 with
      | none => simp only [hm] at h; cases h
      | some row =>
          simp only [hm] at h
          cases hf : getField row gb with
          | none => simp only [hf] at h; cases h
          | some v =>
              simp only [hf] at h
              exact ih (addRow acc (keySel gb v) v row) gs
                (addRow_wf gb acc (keySel gb v) v row hacc hf rfl) h

theorem buildGroupsAux_mono (gb : String) (store : List (String × ResultsListRow)) :
    ∀ (ids : List String) (acc gs : List GroupRec),
      buildGroupsAux gb store acc ids = .ok gs →
      ∀ g ∈ acc, ∀ r ∈ g.rows, ∃ g2 ∈ gs, r ∈ g2.rows := by
  intro ids
  induction ids with
  | nil =>
      intro acc gs h g hg r hr
      unfold buildGroupsAux at h
      injection h with h
      subst h
      exact ⟨g, hg, hr⟩
  | cons id1 t ih =>
      intro acc gs h g hg r hr
      unfold buildGroupsAux at h
      cases hm : mapGet store id1 with
      | none => simp only [hm] at h; cases h
      | some row =>
          simp only [hm] at h
          cases hf : getField row gb with
          | none => simp only [hf] at h; cases h
          | some v =>
              simp only [hf] at h
              obtain ⟨g2, hg2, hr2⟩ := addRow_mem_mono acc (keySel gb v) v row g hg r hr
              exact ih _ gs h g2 hg2 r hr2

theorem buildGroupsAux_covers (gb : String) (store : List (String × ResultsListRow)) :
    ∀ (ids : List String) (acc gs : List GroupRec),
      buildGroupsAux gb store acc ids = .ok gs →
      ∀ id0 ∈ ids, ∀ r, mapGet store id0 = some r → ∃ g ∈ gs, r ∈ g.rows := by
  intro ids
  induction ids with
  | nil => intro acc gs h id0 hid; cases hid
  | cons id1 t ih =>
      intro acc gs h id0 hid r hr
      unfold buildGroupsAux at h
      cases hm : mapGet store id1 with
      | none => simp only [hm] at h; cases h
      | some row =>
          simp only [hm] at h
          cases hf : getField row gb with
          | none => simp only [hf] at h; cases h
          | some v =>
              simp only [hf] at h
              rcases List.mem_cons.mp hid with he | hmemt
              · subst he
                rw [hm] at hr
                injection hr with hr
                subst hr
                obtain ⟨g, hg, hrow⟩ := addRow_mem_new acc (keySel gb v) v row
                exact buildGroupsAux_mono gb store t _ gs h g hg row hrow
              · exact ih _ gs h id0 hmemt r hr

theorem sortGroupRows_elems (sb : ResultsListSortBy) :
    ∀ (l l2 : List GroupRec), sortGroupRows sb l = .ok l2 →
      (∀ g2 ∈ l2, ∃ g ∈ l, g2.key = g.key ∧ g2.text = g.text ∧ g2.rows.Perm g.rows) ∧
      (∀ g ∈ l, ∃ g2 ∈ l2, g2.key = g.key ∧ g2.text = g.text ∧ g2.rows.Perm g.rows) := by
  intro l
  induction l with
  | nil =>
      intro l2 h
      unfold sortGroupRows at h
      injection h with h
      subst h
      exact ⟨by simp, by simp⟩
  | cons g0 t ih =>
      intro l2 h
      unfold sortGroupRows at h
      cases hs : sortE (rowComp sb) g0.rows with
      | error e => simp only [hs] at h; cases h
      | ok r =>
          simp only [hs] at h
          cases ht : sortGroupRows sb t with
          | error e => simp only [ht] at h; cases h
          | ok t2 =>
              simp only [ht] at h
              injection h with h
              subst h
              obtain ⟨ih1, ih2⟩ := ih t2 ht
              constructor
              · intro g2 hg2
                rcases List.mem_cons.mp hg2 with he | hmem
                · refine ⟨g0, List.mem_cons_self _ _, ?_, ?_, ?_⟩
                  · rw [he]
                  · rw [he]
                  · rw [he]
                    exact sortE_perm _ _ _ hs
                · obtain ⟨g, hg, hk, htx, hp⟩ := ih1 g2 hmem
                  exact ⟨g, List.mem_cons.mpr (Or.inr hg), hk, htx, hp⟩
              · intro g hg
                rcases List.mem_cons.mp hg with he | hmem
                · refine ⟨{ g0 with rows := r }, List.mem_cons_self _ _, ?_, ?_, ?_⟩
                  · rw [he]
                  · rw [he]
                  · rw [he]
                    exact sortE_perm _ _ _ hs
                · obtain ⟨g2, hg2, hk, htx, hp⟩ := ih2 g hmem
                  exact ⟨g2, List.mem_cons.mpr (Or.inr hg2), hk, htx, hp⟩

/-- The first row encountered for a grouping key: scan the membership ids
in order and return the row of the first id whose group-by cell carries
that key.  Ids that do not resolve or lack the cell are passed over; when
getResultData succeeds every id resolves, so this is exactly the row that
creates the group (and donates its label) in the grouping loop. -/
def firstRowForKey (gb : String) (store : List (String × ResultsListRow))
    (k : Option CellDatum) : List String → Option ResultsListRow
  | [] => none
  | id0 :: t =>
      match mapGet store id0 with
      | none => firstRowForKey gb store k t
      | some r =>
          match getField r gb with
          | none => firstRowForKey gb store k t
          | some v => if keySel gb v = k then some r else firstRowForKey gb store k t

theorem firstRowForKey_append (gb : String) (store : List (String × ResultsListRow))
    (k : Option CellDatum) (pre : List String) (id0 : String) (rest : List String)
    (r : ResultsListRow) (v : ResultsListValue)
    (hpre : ∀ id1 ∈ pre, ∀ r1 v1, mapGet store id1 = some r1 →
      getField r1 gb = some v1 → keySel gb v1 ≠ k)
    (hid : mapGet store id0 = some r) (hv : getField r gb = some v)
    (hk : keySel gb v = k) :
    firstRowForKey gb store k (pre ++ id0 :: rest) = some r := by
  induction pre with
  | nil =>
      rw [List.nil_append]
      unfold firstRowForKey
      simp [hid, hv, hk]
  | cons id1 pre1 ih =>
      rw [List.cons_append]
      unfold firstRowForKey
      cases hm : mapGet store id1 with
      | none =>
          dsimp only
          exact ih (fun id2 h1 r2 v2 h2 h3 =>
            hpre id2 (List.mem_cons.mpr (Or.inr h1)) r2 v2 h2 h3)
      | some r1 =>
          dsimp only
          cases hf : getField r1 gb with
          | none =>
              dsimp only
              exact ih (fun id2 h1 r2 v2 h2 h3 =>
                hpre id2 (List.mem_cons.mpr (Or.inr h1)) r2 v2 h2 h3)
          | some v1 =>
              dsimp only
              have hne := hpre id1 (List.mem_cons_self _ _) r1 v1 hm hf
              rw [if_neg hne]
              exact ih (fun id2 h1 r2 v2 h2 h3 =>
                hpre id2 (List.mem_cons.mpr (Or.inr h1)) r2 v2 h2 h3)

theorem addRow_key_text (acc : List GroupRec) (k : Option CellDatum)
    (v : ResultsListValue) (row : ResultsListRow) :
    ∀ g1 ∈ addRow acc k v row,
      (∃ g ∈ acc, g1.key = g.key ∧ g1.text = g.text) ∨
      (g1.key = k ∧ g1.text = v.value ∧ ∀ g ∈ acc, g.key ≠ k) := by
  induction acc with
  | nil =>
      intro g1 hg1
      simp [addRow] at hg1
      subst hg1
      right
      exact ⟨rfl, rfl, fun g hg => absurd hg (List.not_mem_nil g)⟩
  | cons g0 t ih =>
      intro g1 hg1
      unfold addRow at hg1
      by_cases h0 : g0.key = k
      · rw [if_pos h0] at hg1
        rcases List.mem_cons.mp hg1 with he | hmem
        · exact Or.inl ⟨g0, List.mem_cons_self _ _, by rw [he], by rw [he]⟩
        · exact Or.inl ⟨g1, List.mem_cons.mpr (Or.inr hmem), rfl, rfl⟩
      · rw [if_neg h0] at hg1
        rcases List.mem_cons.mp hg1 with he | hmem
        · exact Or.inl ⟨g0, List.mem_cons_self _ _, by rw [he], by rw [he]⟩
        · rcases ih g1 hmem with hl | hr
          · obtain ⟨g, hg, h1, h2⟩ := hl
            exact Or.inl ⟨g, List.mem_cons.mpr (Or.inr hg), h1, h2⟩
          · right
            refine ⟨hr.1, hr.2.1, ?_⟩
            intro g hg
            rcases List.mem_cons.mp hg with hge | hgt
            · rw [hge]; exact h0
            · exact hr.2.2 g hgt

theorem addRow_keys_mono (acc : List GroupRec) (k : Option CellDatum)
    (v : ResultsListValue) (row : ResultsListRow) :
    ∀ g ∈ acc, ∃ g1 ∈ addRow acc k v row, g1.key = g.key := by
  induction acc with
  | nil => intro g hg; cases hg
  | cons g0 t ih =>
      intro g hg
      unfold addRow
      by_cases h0 : g0.key = k
      · rw [if_pos h0]
        rcases List.mem_cons.mp hg with he | hmem
        · exact ⟨{ g0 with rows := g0.rows ++ [row] }, List.mem_cons_self _ _, by rw [he]⟩
        · exact ⟨g, List.mem_cons.mpr (Or.inr hmem), rfl⟩
      · rw [if_neg h0]
        rcases List.mem_cons.mp hg with he | hmem
        · exact ⟨g0, List.mem_cons_self _ _, by rw [he]⟩
        · obtain ⟨g1, hg1, hk1⟩ := ih g hmem
          exact ⟨g1, List.mem_cons.mpr (Or.inr hg1), hk1⟩

theorem addRow_key_present (acc : List GroupRec) (k : Option CellDatum)
    (v : ResultsListValue) (row : ResultsListRow) :
    ∃ g1 ∈ addRow acc k v row, g1.key = k := by
  induction acc with
  | nil =>
      refine ⟨{ key := k, text := v.value, tooltip := v.tooltip, rows := [row] }, ?_, rfl⟩
      simp [addRow]
  | cons g0 t ih =>
      unfold addRow
      by_cases h0 : g0.key = k
      · rw [if_pos h0]
        exact ⟨{ g0 with rows := g0.rows ++ [row] }, List.mem_cons_self _ _, h0⟩
      · rw [if_neg h0]
        obtain ⟨g1, hg1, hk1⟩ := ih
        exact ⟨g1, List.mem_cons.mpr (Or.inr hg1), hk1⟩

theorem buildGroupsAux_firstLabel (gb : String)
    (store : List (String × ResultsListRow)) :
    ∀ (rest pre : List String) (acc gs : List GroupRec),
      buildGroupsAux gb store acc rest = .ok gs →
      (∀ g ∈ acc, ∃ r0 v0, firstRowForKey gb store g.key (pre ++ rest) = some r0 ∧
        getField r0 gb = some v0 ∧ keySel gb v0 = g.key ∧ g.text = v0.value) →
      (∀ id1 ∈ pre, ∀ r1 v1, mapGet store id1 = some r1 → getField r1 gb = some v1 →
        ∃ g ∈ acc, g.key = keySel gb v1) →
      ∀ g ∈ gs, ∃ r0 v0, firstRowForKey gb store g.key (pre ++ rest) = some r0 ∧
        getField r0 gb = some v0 ∧ keySel gb v0 = g.key ∧ g.text = v0.value := by
  intro rest
  induction rest with
  | nil =>
      intro pre acc gs h hA hB
      unfold buildGroupsAux at h
      injection h with h
      subst h
      exact hA
  | cons id1 t ih =>
      intro pre acc gs h hA hB
      unfold buildGroupsAux at h
      cases hm : mapGet store id1 with
      | none => simp only [hm] at h; cases h
      | some row =>
          simp only [hm] at h
          cases hf : getField row gb with
          | none => simp only [hf] at h; cases h
          | some v =>
              simp only [hf] at h
              have hassoc : pre ++ id1 :: t = (pre ++ [id1]) ++ t := by simp
              have hA2 : ∀ g ∈ addRow acc (keySel gb v) v row,
                  ∃ r0 v0, firstRowForKey gb store g.key ((pre ++ [id1]) ++ t) = some r0 ∧
                  getField r0 gb = some v0 ∧ keySel gb v0 = g.key ∧ g.text = v0.value := by
                intro g hg
                rcases addRow_key_text acc (keySel gb v) v row g hg with hl | hr
                · obtain ⟨g1, hg1, hkeq, hteq⟩ := hl
                  obtain ⟨r0, v0, h1, h2, h3, h4⟩ := hA g1 hg1
                  refine ⟨r0, v0, ?_, h2, ?_, ?_⟩
                  · rw [← hassoc, hkeq]; exact h1
                  · rw [hkeq]; exact h3
                  · rw [hteq]; exact h4
                · obtain ⟨hk1, ht1, hnew⟩ := hr
                  have hpre : ∀ id2 ∈ pre, ∀ r2 v2, mapGet store id2 = some r2 →
                      getField r2 gb = some v2 → keySel gb v2 ≠ keySel gb v := by
                    intro id2 hid2 r2 v2 h1 h2 hkk
                    obtain ⟨g1, hg1, hgk⟩ := hB id2 hid2 r2 v2 h1 h2
                    rw [hkk] at hgk
                    exact hnew g1 hg1 hgk
                  refine ⟨row, v, ?_, hf, ?_, ?_⟩
                  · rw [← hassoc, hk1]
                    exact firstRowForKey_append gb store (keySel gb v) pre id1 t row v
                      hpre hm hf rfl
                  · rw [hk1]
                  · rw [ht1]
              have hB2 : ∀ id2 ∈ pre ++ [id1], ∀ r2 v2, mapGet store id2 = some r2 →
                  getField r2 gb = some v2 →
                  ∃ g ∈ addRow acc (keySel gb v) v row, g.key = keySel gb v2 := by
                intro id2 hid2 r2 v2 h1 h2
                rcases List.mem_append.mp hid2 with hp | hl
                · obtain ⟨g1, hg1, hgk⟩ := hB id2 hp r2 v2 h1 h2
                  obtain ⟨g2, hg2, hgk2⟩ := addRow_keys_mono acc (keySel gb v) v row g1 hg1
                  exact ⟨g2, hg2, by rw [hgk2, hgk]⟩
                · rw [List.mem_singleton] at hl
                  subst hl
                  rw [hm] at h1
                  injection h1 with h1
                  subst h1
                  rw [hf] at h2
                  injection h2 with h2
                  subst h2
                  exact addRow_key_present acc (keySel gb v) v row
              have hmain := ih (pre ++ [id1]) (addRow acc (keySel gb v) v row) gs h hA2 hB2
              rw [hassoc]
              exact hmain

theorem buildGroups_firstLabel (gb : String) (store : List (String × ResultsListRow))
    (ids : List String) (gs : List GroupRec) (h : buildGroups gb store ids = .ok gs) :
    ∀ g ∈ gs, ∃ r0 v0, firstRowForKey gb store g.key ids = some r0 ∧
      getField r0 gb = some v0 ∧ keySel gb v0 = g.key ∧ g.text = v0.value := by
  have hmain := buildGroupsAux_firstLabel gb store ids [] [] gs h
    (by intro g hg; cases hg) (by intro id1 hid1; cases hid1)
  rw [List.nil_append] at hmain
  exact hmain


/-- C7: when grouping by sarifFile or resultFile, the grouping key is the
cell's tooltip (the full path), not the display value: two member rows with
the same short name but different full paths never share a group, every row
of the group a row lands in carries that row's full path, and the group's
displayed label is the short display value of the FIRST row encountered for
that key in the membership traversal (the row that created the group). -/
theorem grouping_by_full_path (s : ControllerState) (data : ResultsListData)
    (id1 id2 : String) (r1 r2 : ResultsListRow) (v1 v2 : ResultsListValue)
    (t1 t2 : String)
    (hgb : s.groupBy = "sarifFile" ∨ s.groupBy = "resultFile")
    (hok : getResultData s = .ok data)
    (hst1 : mapGet s.resultsListRows id1 = some r1)
    (hst2 : mapGet s.resultsListRows id2 = some r2)
    (hm1 : id1 ∈ s.postFilterListRows) (hm2 : id2 ∈ s.postFilterListRows)
    (hf1 : getField r1 s.groupBy = some v1) (hf2 : getField r2 s.groupBy = some v2)
    (_hvv : v1.value = v2.value)
    (ht1 : v1.tooltip = some t1) (ht2 : v2.tooltip = some t2) (hne : t1 ≠ t2) :
    (∃ g ∈ data.groups, r1 ∈ g.rows) ∧
    (∃ g ∈ data.groups, r2 ∈ g.rows) ∧
    (∀ g ∈ data.groups, ¬(r1 ∈ g.rows ∧ r2 ∈ g.rows)) ∧
    (∀ g ∈ data.groups, r1 ∈ g.rows →
      ∀ r ∈ g.rows, ∃ vr, getField r s.groupBy = some vr ∧ vr.tooltip = some t1) ∧
    (∀ g ∈ data.groups, r1 ∈ g.rows →
      ∃ r0 v0,
        firstRowForKey s.groupBy s.resultsListRows g.key s.postFilterListRows =
          some r0 ∧
        getField r0 s.groupBy = some v0 ∧ v0.tooltip = some t1 ∧
        g.text = v0.value) := by
  have hksel : ∀ v : ResultsListValue, keySel s.groupBy v = v.tooltip.map CellDatum.str := by
    intro v
    rcases hgb with h | h <;> rw [h] <;> simp [keySel]
  have htooltip : ∀ (vr : ResultsListValue),
      keySel s.groupBy vr = some (CellDatum.str t1) → vr.tooltip = some t1 := by
    intro vr hk
    rw [hksel] at hk
    cases hvt : vr.tooltip with
    | none => rw [hvt] at hk; cases hk
    | some x =>
        rw [hvt] at hk
        simp at hk
        simp [hk]
  unfold getResultData at hok
  cases hbg : buildGroups s.groupBy s.resultsListRows s.postFilterListRows with
  | error e => simp only [hbg] at hok; cases hok
  | ok gs =>
      simp only [hbg] at hok
      cases hsr : sortGroupRows s.sortBy (sortGroupsByCount gs) with
      | error e => simp only [hsr] at hok; cases hok
      | ok gs2 =>
          simp only [hsr] at hok
          injection hok with hok
          have hdg : data.groups = gs2 := by rw [← hok]
          have hwf : ∀ g ∈ gs, GroupWF s.groupBy g :=
            buildGroupsAux_wf s.groupBy s.resultsListRows s.postFilterListRows [] gs
              (by intro g hg; cases hg) hbg
          have hcov1 : ∃ g ∈ gs, r1 ∈ g.rows :=
            buildGroupsAux_covers s.groupBy s.resultsListRows s.postFilterListRows
              [] gs hbg id1 hm1 r1 hst1
          have hcov2 : ∃ g ∈ gs, r2 ∈ g.rows :=
            buildGroupsAux_covers s.groupBy s.resultsListRows s.postFilterListRows
              [] gs hbg id2 hm2 r2 hst2
          have hperm := List.perm_insertionSort
            (fun a b : GroupRec => b.rows.length ≤ a.rows.length) gs
          obtain ⟨helems1, helems2⟩ := sortGroupRows_elems s.sortBy _ gs2 hsr
          have hback : ∀ g2 ∈ gs2, ∃ g ∈ gs,
              g2.key = g.key ∧ g2.text = g.text ∧ g2.rows.Perm g.rows := by
            intro g2 hg2
            obtain ⟨g, hg, hk, htx, hp⟩ := helems1 g2 hg2
            exact ⟨g, hperm.mem_iff.mp hg, hk, htx, hp⟩
          have hfwd : ∀ g ∈ gs, ∃ g2 ∈ gs2,
              g2.key = g.key ∧ g2.text = g.text ∧ g2.rows.Perm g.rows := by
            intro g hg
            exact helems2 g (hperm.mem_iff.mpr hg)
          have hkey1 : ∀ g ∈ gs, r1 ∈ g.rows → g.key = some (CellDatum.str t1) := by
            intro g hg hr
            obtain ⟨v, hv, hk⟩ := (hwf g hg).1 r1 hr
            rw [hf1] at hv
            injection hv with hv
            subst hv
            rw [hksel, ht1] at hk
            exact hk.symm
          have hkey2 : ∀ g ∈ gs, r2 ∈ g.rows → g.key = some (CellDatum.str t2) := by
            intro g hg hr
            obtain ⟨v, hv, hk⟩ := (hwf g hg).1 r2 hr
            rw [hf2] at hv
            injection hv with hv
            subst hv
            rw [hksel, ht2] at hk
            exact hk.symm
          rw [hdg]
          refine ⟨?_, ?_, ?_, ?_, ?_⟩
          · obtain ⟨g, hg, hr⟩ := hcov1
            obtain ⟨g2, hg2, _, _, hp⟩ := hfwd g hg
            exact ⟨g2, hg2, hp.mem_iff.mpr hr⟩
          · obtain ⟨g, hg, hr⟩ := hcov2
            obtain ⟨g2, hg2, _, _, hp⟩ := hfwd g hg
            exact ⟨g2, hg2, hp.mem_iff.mpr hr⟩
          · rintro g2 hg2 ⟨ha, hb⟩
            obtain ⟨g, hg, hk, htx, hp⟩ := hback g2 hg2
            have h1 := hkey1 g hg (hp.mem_iff.mp ha)
            have h2 := hkey2 g hg (hp.mem_iff.mp hb)
            rw [h1] at h2
            injection h2 with h2
            injection h2 with h2
            exact hne h2
          · intro g2 hg2 hr1 r hr
            obtain ⟨g, hg, hk, htx, hp⟩ := hback g2 hg2
            obtain ⟨vr, hvr, hkr⟩ := (hwf g hg).1 r (hp.mem_iff.mp hr)
            have hgk := hkey1 g hg (hp.mem_iff.mp hr1)
            rw [hgk] at hkr
            exact ⟨vr, hvr, htooltip vr hkr⟩
          · intro g2 hg2 hr1
            obtain ⟨g, hg, hk, htx, hp⟩ := hback g2 hg2
            obtain ⟨r0, v0, hfst, hv0, hk0, htx0⟩ := buildGroups_firstLabel
              s.groupBy s.resultsListRows s.postFilterListRows gs hbg g hg
            have hgk := hkey1 g hg (hp.mem_iff.mp hr1)
            rw [hgk] at hk0
            refine ⟨r0, v0, ?_, hv0, htooltip v0 hk0, ?_⟩
            · rw [hk]; exact hfst
            · rw [htx, htx0]

/-- A configuration snapshot grouping by resultFile. -/
def cfgRF : Config :=
  { hideColumns := [], groupBy := "resultFile",
    sortBy := { column := "message", ascending := true } }

/-- The reachable state holding the two sample rows (same short file name
"a.c", full paths /x/a.c and /y/a.c) grouped by resultFile. -/
def sC7 : ControllerState :=
  (updateResultsListData envC (initState cfgRF) [d1, d2] false).2

/-- The projection sC7 yields. -/
def dataC7 : ResultsListData :=
  match getResultData sC7 with
  | .ok d => d
  | .error _ =>
      { columns := [], filterCaseMatch := false, filterText := "", groupBy := "",
        groups := [], resultCount := 0,
        sortBy := { column := "", ascending := true } }

/-- Witness for C7: in the concrete projection the two rows sit in
different groups, each group rowA lands in is homogeneous in its full path
/x/a.c, and that group's label is the display value of the first membership
row encountered for its key. -/
theorem grouping_by_full_path_witness :
    (∃ g ∈ dataC7.groups, rowA ∈ g.rows) ∧
    (∃ g ∈ dataC7.groups, rowB ∈ g.rows) ∧
    (∀ g ∈ dataC7.groups, ¬(rowA ∈ g.rows ∧ rowB ∈ g.rows)) ∧
    (∀ g ∈ dataC7.groups, rowA ∈ g.rows →
      ∀ r ∈ g.rows, ∃ vr, getField r sC7.groupBy = some vr ∧
        vr.tooltip = some "/x/a.c") ∧
    (∀ g ∈ dataC7.groups, rowA ∈ g.rows →
      ∃ r0 v0,
        firstRowForKey sC7.groupBy sC7.resultsListRows g.key
          sC7.postFilterListRows = some r0 ∧
        getField r0 sC7.groupBy = some v0 ∧ v0.tooltip = some "/x/a.c" ∧
        g.text = v0.value) :=
  grouping_by_full_path sC7 dataC7 "1_1" "1_2" rowA rowB rowA.resultFile
    rowB.resultFile "/x/a.c" "/y/a.c" (Or.inr (by decide)) (by decide) (by decide)
    (by decide) (by decide) (by decide) (by decide) (by decide) (by decide)
    (by decide) (by decide) (by decide)
